import Mathlib

/-!
# Verification of the optimization demo notebook

Shallow embedding of `Demo_Optimization.ipynb`.  The notebook defines toy
objective and constraint functions and hands them to a library solver
(`scipy.optimize.minimize`, method SLSQP, and `linprog`).  The notebook's own
functions (`profit`, the fencing `cost`/`area` and its constraint dictionary,
the portfolio constraint, the Lagrange-example `cost`/`constraint`) are
embedded over `ℝ` below, keeping their source names inside one namespace per
example because the notebook reuses the name `cost`.

The solver routine itself is not part of the repository, so the SQP solver
described by the accompanying design document is modelled explicitly (see the
`SQP` namespace): an exact-rational iteration with a dimension check, an
L1-penalty merit function, an Armijo backtracking line search, a convergence
test, and best-iterate tracking, matching the design's state machine and its
error-handling policy.
-/

namespace Demo

/-- The notebook's profit function: `def profit(x): return x - x**2 / 15`. -/
noncomputable def profit (x : ℝ) : ℝ := x - x ^ 2 / 15

namespace Fencing

/-- Fencing objective: `def cost(xy): return 7*2*xy[0] + 4*2*xy[1]`. -/
noncomputable def cost (xy : ℝ × ℝ) : ℝ := 7 * 2 * xy.1 + 4 * 2 * xy.2

/-- `def area(xy): return xy[0]*xy[1]`. -/
noncomputable def area (xy : ℝ × ℝ) : ℝ := xy.1 * xy.2

/-- The `fun` entry of the fencing constraint dictionary:
`lambda xy: [area(xy) - 100]` (single component). -/
noncomputable def consFun (xy : ℝ × ℝ) : ℝ := area xy - 100

/-- The `jac` entry of the fencing constraint dictionary:
`lambda xy: [[xy[1], xy[0]]]` (single row). -/
noncomputable def consJac (xy : ℝ × ℝ) : ℝ × ℝ := (xy.2, xy.1)

/-- Feasible set of the fencing call: bounds `[(0, np.inf), (0, np.inf)]`
and the inequality constraint `area(xy) - 100 >= 0`. -/
def Feasible (xy : ℝ × ℝ) : Prop := 0 ≤ xy.1 ∧ 0 ≤ xy.2 ∧ 0 ≤ consFun xy

/-- A point solving the fencing problem: feasible and of minimal cost. -/
def IsOptimum (xy : ℝ × ℝ) : Prop :=
  Feasible xy ∧ ∀ q : ℝ × ℝ, Feasible q → cost xy ≤ cost q

end Fencing

namespace Portfolio

/-- The `fun` entry of the portfolio constraint dictionary:
`lambda s: [10 - sum(s)]` with three stocks. -/
noncomputable def consFun (s : ℝ × ℝ × ℝ) : ℝ := 10 - (s.1 + s.2.1 + s.2.2)

/-- The `jac` entry of the portfolio constraint dictionary:
`lambda s: [[-1.0, -1.0, -1.0]]`. -/
noncomputable def consJac (_s : ℝ × ℝ × ℝ) : ℝ × ℝ × ℝ := (-1.0, -1.0, -1.0)

end Portfolio

namespace Lagrange

/-- Lagrange-example objective: `def cost(xy): return xy[0]**2 + 4*xy[1]`. -/
noncomputable def cost (xy : ℝ × ℝ) : ℝ := xy.1 ^ 2 + 4 * xy.2

/-- `def constraint(xy): return xy[0] + xy[1]`. -/
noncomputable def constraint (xy : ℝ × ℝ) : ℝ := xy.1 + xy.2

/-- The `fun` entry of the equality constraint dictionary:
`lambda xy: [constraint(xy) - 6]`. -/
noncomputable def consFun (xy : ℝ × ℝ) : ℝ := constraint xy - 6

/-- The `jac` entry of the equality constraint dictionary:
`lambda xy: [[1, 1]]`. -/
noncomputable def consJac (_xy : ℝ × ℝ) : ℝ × ℝ := (1, 1)

/-- Feasible set of the Lagrange call: the equality constraint
`constraint(xy) - 6 == 0` (the call passes no bounds). -/
def Feasible (xy : ℝ × ℝ) : Prop := consFun xy = 0

/-- A point solving the Lagrange problem: feasible and of minimal cost. -/
def IsOptimum (xy : ℝ × ℝ) : Prop :=
  Feasible xy ∧ ∀ q : ℝ × ℝ, Feasible q → cost xy ≤ cost q

end Lagrange

namespace SQP

/-- Modelled from the spec: constraint tag, EQUALITY (must equal zero) or
INEQUALITY (must be at least zero).  The solver implementation is absent from
the repository (only the notebook's calls to it appear), so the SQP design in
the specification is modelled here over exact rationals. -/
inductive ConstraintKind
  | EQUALITY
  | INEQUALITY
deriving DecidableEq, Repr

/-- Modelled from the spec: a constraint is a function from the decision
vector to a value, tagged with its kind, paired with its own gradient. -/
structure Constraint where
  kind : ConstraintKind
  fn : List ℚ → ℚ
  jacobian : List ℚ → List ℚ

/-- Modelled from the spec: one (lower, upper) bound pair, each side possibly
unbounded, represented by a sentinel rather than a large finite number. -/
structure Bound where
  lo : Option ℚ
  hi : Option ℚ

/-- Modelled from the spec: the call signature of one solve invocation —
objective, gradient, constraints, bounds, initial vector, tolerance,
iteration budget. -/
structure Problem where
  objective : List ℚ → ℚ
  grad : List ℚ → List ℚ
  constraints : List Constraint
  bounds : List Bound
  x0 : List ℚ
  tol : ℚ
  maxIter : ℕ

/-- Modelled from the spec: the termination reasons of the solver's state
machine and error-kind list. -/
inductive TermReason
  | CONVERGED
  | MAX_ITERATIONS_EXCEEDED
  | NO_DESCENT_DIRECTION
  | INVALID_DIMENSION
deriving DecidableEq, Repr

/-- Modelled from the spec: the structured result of one solve call — final
vector, objective value there, success flag, iteration count, termination
reason. -/
structure OptimizationResult where
  x : List ℚ
  fval : ℚ
  success : Bool
  iterations : ℕ
  reason : TermReason
deriving DecidableEq, Repr

/-- Violation of a single constraint at a point: `|c(x)|` for an equality,
`max 0 (-c(x))` for an inequality (zero when satisfied). -/
def consViolation (c : Constraint) (x : List ℚ) : ℚ :=
  match c.kind with
  | .EQUALITY => |c.fn x|
  | .INEQUALITY => max 0 (-(c.fn x))

/-- Violation of one bound pair at one coordinate value. -/
def boundViolation (b : Bound) (v : ℚ) : ℚ :=
  (match b.lo with
   | none => 0
   | some lo => max 0 (lo - v)) +
  (match b.hi with
   | none => 0
   | some hi => max 0 (v - hi))

/-- Total constraint-and-bound violation at a point (L1 aggregation). -/
def violation (p : Problem) (x : List ℚ) : ℚ :=
  (p.constraints.map fun c => consViolation c x).sum +
  ((x.zip p.bounds).map fun vb => boundViolation vb.2 vb.1).sum

/-- Penalty weight of the L1 merit function. -/
def meritPenalty : ℚ := 100

/-- Modelled from the spec: the L1-penalty merit function balancing objective
decrease against constraint violation. -/
def merit (p : Problem) (x : List ℚ) : ℚ :=
  p.objective x + meritPenalty * violation p x

/-- Squared Euclidean norm of a rational vector. -/
def sqnorm (g : List ℚ) : ℚ := (g.map fun t => t * t).sum

/-- Step direction: the negated gradient of the objective. -/
def descentDir (p : Problem) (x : List ℚ) : List ℚ :=
  (p.grad x).map fun t => -t

/-- `x + t • d`, componentwise. -/
def addScaled (x : List ℚ) (t : ℚ) (d : List ℚ) : List ℚ :=
  (x.zip d).map fun q => q.1 + t * q.2

/-- Armijo sufficient-decrease coefficient. -/
def armijoSigma : ℚ := 1 / 10

/-- Armijo sufficient-decrease test on the merit function for step length
`t` along direction `d`. -/
def armijoAccept (p : Problem) (x d : List ℚ) (t : ℚ) : Prop :=
  merit p (addScaled x t d) ≤ merit p x - armijoSigma * t * sqnorm d

instance (p : Problem) (x d : List ℚ) (t : ℚ) : Decidable (armijoAccept p x d t) := by
  unfold armijoAccept; infer_instance

/-- Modelled from the spec: backtracking line search — halve the step length
until the Armijo condition on the merit function holds; give up (no feasible
descent direction) after exhausting the trial budget. -/
def backtrack (p : Problem) (x d : List ℚ) : ℕ → ℚ → Option (List ℚ)
  | 0, _ => none
  | k + 1, t =>
    if armijoAccept p x d t then some (addScaled x t d)
    else backtrack p x d k (t / 2)

/-- Number of step-halvings the line search may try. -/
def backtrackBudget : ℕ := 30

/-- One line search from `x`: full step first, then halvings. -/
def lineSearch (p : Problem) (x : List ℚ) : Option (List ℚ) :=
  backtrack p x (descentDir p x) backtrackBudget 1

/-- Modelled from the spec: the convergence test — constraint violation below
tolerance and (squared) objective-gradient norm below tolerance. -/
def converged (p : Problem) (x : List ℚ) : Prop :=
  violation p x ≤ p.tol ∧ sqnorm (p.grad x) ≤ p.tol

instance (p : Problem) (x : List ℚ) : Decidable (converged p x) := by
  unfold converged; infer_instance

/-- Best-iterate tracking: keep whichever of the stored best and the new
iterate has the lower merit value. -/
def updBest (p : Problem) (best x : List ℚ) : List ℚ :=
  if merit p x ≤ merit p best then x else best

/-- Modelled from the spec: the main iteration.  Arguments: remaining fuel,
current iterate, best iterate found so far, iterations performed.  Exits:
CONVERGED (success) when the convergence test holds at the current iterate;
NO_DESCENT_DIRECTION when the line search fails; MAX_ITERATIONS_EXCEEDED when
the budget runs out, returning the best iterate rather than discarding it. -/
def solveLoop (p : Problem) : ℕ → List ℚ → List ℚ → ℕ → OptimizationResult
  | 0, _, best, iters =>
    ⟨best, p.objective best, false, iters, .MAX_ITERATIONS_EXCEEDED⟩
  | fuel + 1, x, best, iters =>
    if converged p x then ⟨x, p.objective x, true, iters, .CONVERGED⟩
    else
      match lineSearch p x with
      | none => ⟨best, p.objective best, false, iters, .NO_DESCENT_DIRECTION⟩
      | some x1 => solveLoop p fuel x1 (updBest p best x1) (iters + 1)

/-- Dimension validation performed before any iteration: the gradient, the
bounds list and every constraint Jacobian must match the length of the
initial decision vector. -/
def dimsOk (p : Problem) : Prop :=
  (p.grad p.x0).length = p.x0.length ∧
  p.bounds.length = p.x0.length ∧
  ∀ c ∈ p.constraints, (c.jacobian p.x0).length = p.x0.length

instance (p : Problem) : Decidable (dimsOk p) := by
  unfold dimsOk; infer_instance

/-- Modelled from the spec: one solve invocation.  Fails fast with
INVALID_DIMENSION (zero iterations) on a dimension mismatch; otherwise runs
the iteration from the initial vector. -/
def solve (p : Problem) : OptimizationResult :=
  if dimsOk p then solveLoop p p.maxIter p.x0 p.x0 0
  else ⟨p.x0, p.objective p.x0, false, 0, .INVALID_DIMENSION⟩

/-- The sequence of iterates the loop visits from `x` with the given fuel
(current iterate first), stopping where the loop stops. -/
def iterates (p : Problem) : ℕ → List ℚ → List (List ℚ)
  | 0, x => [x]
  | fuel + 1, x =>
    if converged p x then [x]
    else
      match lineSearch p x with
      | none => [x]
      | some x1 => x :: iterates p fuel x1

/-- Modelled from the spec: the process state surrounding solve calls.  The
solver holds no persistent state of its own across calls; the ambient state
(here: how many solves have run) is threaded explicitly to state that. -/
structure AmbientState where
  callCount : ℕ
deriving DecidableEq, Repr

/-- One solve call as observed by the process: the result, and the ambient
state afterwards (the call counter advances, so the state does change between
two successive calls). -/
def solveCall (p : Problem) (s : AmbientState) : OptimizationResult × AmbientState :=
  (solve p, ⟨s.callCount + 1⟩)

/-- Modelled from the spec: quadratic objective `a·x² + b·x + c` in one
variable, the shape of the notebook's unconstrained example. -/
def quadObj (a b c x : ℚ) : ℚ := a * x ^ 2 + b * x + c

/-- The notebook's profit function over exact rationals (its coefficients are
rational): `x - x**2 / 15`. -/
def profitQ (x : ℚ) : ℚ := x - x ^ 2 / 15

/-- Newton step for the quadratic `a·x² + b·x + c`: gradient `2a·x + b`,
Hessian `2a`. -/
def newtonStep (a b x : ℚ) : ℚ := x - (2 * a * x + b) / (2 * a)

/-- Modelled from the spec: unconstrained Newton iteration (the exact-Hessian
limit of the BFGS update) with a zero-step stopping test. -/
def newtonIter (a b : ℚ) : ℕ → ℚ → ℚ
  | 0, x => x
  | fuel + 1, x =>
    let x1 := newtonStep a b x
    if x1 = x then x else newtonIter a b fuel x1

/-- Modelled from the spec: the unconstrained solve of a one-variable
quadratic, with the default iteration budget. -/
def solveQuad (a b _c x0 : ℚ) : ℚ := newtonIter a b 100 x0

/-- A concrete well-posed problem whose initial point already satisfies the
convergence test: minimize `(x - 1)²` subject to `x ≥ 0` (constraint and
bound) from `x0 = 1`. -/
def exampleConvergent : Problem where
  objective := fun x => (x.headD 0 - 1) ^ 2
  grad := fun x => [2 * (x.headD 0 - 1)]
  constraints := [⟨.INEQUALITY, fun x => x.headD 0, fun _ => [1]⟩]
  bounds := [⟨some 0, none⟩]
  x0 := [1]
  tol := 1 / 1000000
  maxIter := 100

/-- A concrete ill-posed input: a 3-element initial vector paired with a
2-element gradient. -/
def exampleMismatch : Problem where
  objective := fun x => x.headD 0
  grad := fun _ => [1, 1]
  constraints := []
  bounds := [⟨none, none⟩, ⟨none, none⟩, ⟨none, none⟩]
  x0 := [1, 1, 1]
  tol := 1 / 1000000
  maxIter := 100

/-- A concrete unbounded-descent problem: minimize `x` (no constraints), so
the budget of two iterations is exhausted without convergence. -/
def exampleExhaust : Problem where
  objective := fun x => x.headD 0
  grad := fun _ => [1]
  constraints := []
  bounds := [⟨none, none⟩]
  x0 := [0]
  tol := 1 / 1000000
  maxIter := 2

end SQP

end Demo

/-- Claim C10: the profit function `profit(x) = x - x**2/15` has a unique
global maximum at `x = 7.5` with value `3.75`: every real `x` has
`profit x ≤ 3.75`, with equality exactly when `x = 7.5`. -/
theorem profit_unique_max (x : ℝ) :
    Demo.profit x ≤ 3.75 ∧ (Demo.profit x = 3.75 ↔ x = 7.5) := by
  unfold Demo.profit
  refine ⟨by nlinarith [sq_nonneg (x - 7.5)], ⟨fun h => ?_, fun h => by rw [h]; norm_num⟩⟩
  have h2 : (x - 7.5) ^ 2 = 0 := by nlinarith
  have h3 : x - 7.5 = 0 := pow_eq_zero_iff two_ne_zero |>.mp h2
  linarith

/-- Claim C10 witness: the bound and the equality instantiated at 7.5. -/
theorem profit_unique_max_witness :
    Demo.profit 7.5 ≤ 3.75 ∧ (Demo.profit 7.5 = 3.75 ↔ (7.5 : ℝ) = 7.5) :=
  profit_unique_max 7.5

/-- Claim C9: in every constraint dictionary the notebook builds, the supplied
`jac` is the exact analytic derivative of the supplied `fun`: the partial
derivatives of `x*y - 100` are `[y, x]` (fencing), those of `10 - s1 - s2 - s3`
are `[-1, -1, -1]` (portfolio), and those of `x + y - 6` are `[1, 1]`
(Lagrange example). -/
theorem constraint_jacobians_exact (x y z : ℝ) :
    deriv (fun t => Demo.Fencing.consFun (t, y)) x = (Demo.Fencing.consJac (x, y)).1 ∧
    deriv (fun t => Demo.Fencing.consFun (x, t)) y = (Demo.Fencing.consJac (x, y)).2 ∧
    deriv (fun t => Demo.Portfolio.consFun (t, y, z)) x = (Demo.Portfolio.consJac (x, y, z)).1 ∧
    deriv (fun t => Demo.Portfolio.consFun (x, t, z)) y = (Demo.Portfolio.consJac (x, y, z)).2.1 ∧
    deriv (fun t => Demo.Portfolio.consFun (x, y, t)) z = (Demo.Portfolio.consJac (x, y, z)).2.2 ∧
    deriv (fun t => Demo.Lagrange.consFun (t, y)) x = (Demo.Lagrange.consJac (x, y)).1 ∧
    deriv (fun t => Demo.Lagrange.consFun (x, t)) y = (Demo.Lagrange.consJac (x, y)).2 := by
  refine ⟨?_, ?_, ?_, ?_, ?_, ?_, ?_⟩
  · have h := (((hasDerivAt_id x).mul_const y).sub_const 100).deriv
    simpa [Demo.Fencing.consFun, Demo.Fencing.area, Demo.Fencing.consJac] using h
  · have h := (((hasDerivAt_id y).const_mul x).sub_const 100).deriv
    simpa [Demo.Fencing.consFun, Demo.Fencing.area, Demo.Fencing.consJac] using h
  · show deriv (fun t : ℝ => 10 - (t + y + z)) x = -1.0
    have h := ((((hasDerivAt_id x).add_const y).add_const z).const_sub 10).deriv
    rw [show (-1.0 : ℝ) = -1 from by norm_num]
    simpa using h
  · show deriv (fun t : ℝ => 10 - (x + t + z)) y = -1.0
    have h := ((((hasDerivAt_id y).const_add x).add_const z).const_sub 10).deriv
    rw [show (-1.0 : ℝ) = -1 from by norm_num]
    simpa using h
  · show deriv (fun t : ℝ => 10 - (x + y + t)) z = -1.0
    have h := (((hasDerivAt_id z).const_add (x + y)).const_sub 10).deriv
    rw [show (-1.0 : ℝ) = -1 from by norm_num]
    simpa using h
  · have h := (((hasDerivAt_id x).add_const y).sub_const 6).deriv
    simpa [Demo.Lagrange.consFun, Demo.Lagrange.constraint, Demo.Lagrange.consJac] using h
  · have h := (((hasDerivAt_id y).const_add x).sub_const 6).deriv
    simpa [Demo.Lagrange.consFun, Demo.Lagrange.constraint, Demo.Lagrange.consJac] using h

/-- The point (2, 4) is feasible for the Lagrange problem and minimizes the
cost over the feasible set. -/
theorem lagrangeOptimal : Demo.Lagrange.IsOptimum (2, 4) := by
  constructor
  · show Demo.Lagrange.consFun (2, 4) = 0
    norm_num [Demo.Lagrange.consFun, Demo.Lagrange.constraint]
  · intro q hq
    have hfeas : q.1 + q.2 - 6 = 0 := hq
    show (2 : ℝ) ^ 2 + 4 * 4 ≤ q.1 ^ 2 + 4 * q.2
    nlinarith [sq_nonneg (q.1 - 2)]

/-- Claim C3: any solution of the Lagrange problem (minimize x² + 4y subject
to x + y = 6) lies within 1e-4 of the closed-form stationary point (2, 4) —
in fact it equals it. -/
theorem lagrange_solution_characterization (p : ℝ × ℝ)
    (h : Demo.Lagrange.IsOptimum p) :
    |p.1 - 2| ≤ 1e-4 ∧ |p.2 - 4| ≤ 1e-4 := by
  have hfeas : p.1 + p.2 - 6 = 0 := h.1
  have hle : p.1 ^ 2 + 4 * p.2 ≤ (2 : ℝ) ^ 2 + 4 * 4 :=
    h.2 (2, 4) lagrangeOptimal.1
  have hsq : (p.1 - 2) ^ 2 = 0 :=
    le_antisymm (by nlinarith) (sq_nonneg _)
  have hx : p.1 = 2 := by
    have h3 := pow_eq_zero_iff two_ne_zero |>.mp hsq
    linarith
  have hy : p.2 = 4 := by linarith
  rw [hx, hy]
  norm_num

/-- Claim C3 witness: the optimum (2, 4) itself satisfies the hypothesis and
the conclusion. -/
theorem lagrange_solution_witness :
    Demo.Lagrange.IsOptimum (2, 4) ∧
      |((2 : ℝ), (4 : ℝ)).1 - 2| ≤ 1e-4 ∧ |((2 : ℝ), (4 : ℝ)).2 - 4| ≤ 1e-4 :=
  ⟨lagrangeOptimal, lagrange_solution_characterization (2, 4) lagrangeOptimal⟩

/-- Rewriting √11200 as 14·√(400/7). -/
theorem sqrt11200_left : Real.sqrt 11200 = 14 * Real.sqrt (400 / 7) := by
  rw [show (11200 : ℝ) = 14 ^ 2 * (400 / 7) by norm_num,
    Real.sqrt_mul (by positivity), Real.sqrt_sq (by norm_num)]

/-- Rewriting √11200 as 8·√175. -/
theorem sqrt11200_right : Real.sqrt 11200 = 8 * Real.sqrt 175 := by
  rw [show (11200 : ℝ) = 8 ^ 2 * 175 by norm_num,
    Real.sqrt_mul (by positivity), Real.sqrt_sq (by norm_num)]

/-- The product of the analytic fencing coordinates is exactly 100. -/
theorem fencing_opt_product : Real.sqrt (400 / 7) * Real.sqrt 175 = 100 := by
  rw [← Real.sqrt_mul (by norm_num),
    show (400 / 7 : ℝ) * 175 = 100 ^ 2 by norm_num, Real.sqrt_sq (by norm_num)]

/-- AM–GM lower bound for the fencing cost over the feasible set. -/
theorem fencing_cost_lower (q : ℝ × ℝ) (hq : Demo.Fencing.Feasible q) :
    2 * Real.sqrt 11200 ≤ Demo.Fencing.cost q := by
  obtain ⟨hx, hy, hc⟩ := hq
  have hcons : 100 ≤ q.1 * q.2 := by
    have hc2 : (0 : ℝ) ≤ q.1 * q.2 - 100 := hc
    linarith
  have hu2 : Real.sqrt (14 * q.1) ^ 2 = 14 * q.1 := Real.sq_sqrt (by linarith)
  have hv2 : Real.sqrt (8 * q.2) ^ 2 = 8 * q.2 := Real.sq_sqrt (by linarith)
  have huv : Real.sqrt (14 * q.1) * Real.sqrt (8 * q.2)
      = Real.sqrt (112 * (q.1 * q.2)) := by
    rw [← Real.sqrt_mul (by linarith)]
    congr 1
    ring
  have hmono : Real.sqrt 11200 ≤ Real.sqrt (112 * (q.1 * q.2)) :=
    Real.sqrt_le_sqrt (by nlinarith)
  have hamgm : 2 * (Real.sqrt (14 * q.1) * Real.sqrt (8 * q.2))
      ≤ Real.sqrt (14 * q.1) ^ 2 + Real.sqrt (8 * q.2) ^ 2 := by
    nlinarith [sq_nonneg (Real.sqrt (14 * q.1) - Real.sqrt (8 * q.2))]
  have hcost : Demo.Fencing.cost q
      = Real.sqrt (14 * q.1) ^ 2 + Real.sqrt (8 * q.2) ^ 2 := by
    rw [hu2, hv2]
    show 7 * 2 * q.1 + 4 * 2 * q.2 = 14 * q.1 + 8 * q.2
    ring
  rw [hcost]
  calc 2 * Real.sqrt 11200 ≤ 2 * Real.sqrt (112 * (q.1 * q.2)) := by linarith
    _ = 2 * (Real.sqrt (14 * q.1) * Real.sqrt (8 * q.2)) := by rw [huv]
    _ ≤ _ := hamgm

/-- The analytic point (√(400/7), √175) is feasible for the fencing problem
and minimizes the cost over the feasible set. -/
theorem fencingOptimal :
    Demo.Fencing.IsOptimum (Real.sqrt (400 / 7), Real.sqrt 175) := by
  have hcost : Demo.Fencing.cost (Real.sqrt (400 / 7), Real.sqrt 175)
      = 2 * Real.sqrt 11200 := by
    show 7 * 2 * Real.sqrt (400 / 7) + 4 * 2 * Real.sqrt 175 = 2 * Real.sqrt 11200
    have h1 := sqrt11200_left
    have h2 := sqrt11200_right
    linarith
  refine ⟨⟨Real.sqrt_nonneg _, Real.sqrt_nonneg _, ?_⟩, ?_⟩
  · show (0 : ℝ) ≤ Real.sqrt (400 / 7) * Real.sqrt 175 - 100
    rw [fencing_opt_product]
    norm_num
  · intro q hq
    rw [hcost]
    exact fencing_cost_lower q hq

/-- Claim C2: any solution of the fencing problem (minimize 14x + 8y subject
to x·y ≥ 100 and x, y ≥ 0) has x·y = 100 within 1e-4 (the constraint is
active) and matches the analytic point (√(4/7·100), √(7/4·100)) within 1e-3 —
in fact all three hold exactly. -/
theorem fencing_solution_characterization (p : ℝ × ℝ)
    (h : Demo.Fencing.IsOptimum p) :
    |Demo.Fencing.area p - 100| ≤ 1e-4 ∧
    |p.1 - Real.sqrt (4 / 7 * 100)| ≤ 1e-3 ∧
    |p.2 - Real.sqrt (7 / 4 * 100)| ≤ 1e-3 := by
  obtain ⟨⟨hx, hy, hc⟩, hmin⟩ := h
  have hcons : 100 ≤ p.1 * p.2 := by
    have hc2 : (0 : ℝ) ≤ p.1 * p.2 - 100 := hc
    linarith
  have hub : Demo.Fencing.cost p ≤ 2 * Real.sqrt 11200 := by
    have hopt := hmin (Real.sqrt (400 / 7), Real.sqrt 175) fencingOptimal.1
    have hcost : Demo.Fencing.cost (Real.sqrt (400 / 7), Real.sqrt 175)
        = 2 * Real.sqrt 11200 := by
      show 7 * 2 * Real.sqrt (400 / 7) + 4 * 2 * Real.sqrt 175 = 2 * Real.sqrt 11200
      have h1 := sqrt11200_left
      have h2 := sqrt11200_right
      linarith
    rw [hcost] at hopt
    exact hopt
  have hu2 : Real.sqrt (14 * p.1) ^ 2 = 14 * p.1 := Real.sq_sqrt (by linarith)
  have hv2 : Real.sqrt (8 * p.2) ^ 2 = 8 * p.2 := Real.sq_sqrt (by linarith)
  have huv : Real.sqrt (14 * p.1) * Real.sqrt (8 * p.2)
      = Real.sqrt (112 * (p.1 * p.2)) := by
    rw [← Real.sqrt_mul (by linarith)]
    congr 1
    ring
  have hmono : Real.sqrt 11200 ≤ Real.sqrt (112 * (p.1 * p.2)) :=
    Real.sqrt_le_sqrt (by nlinarith)
  have hamgm : 2 * (Real.sqrt (14 * p.1) * Real.sqrt (8 * p.2))
      ≤ Real.sqrt (14 * p.1) ^ 2 + Real.sqrt (8 * p.2) ^ 2 := by
    nlinarith [sq_nonneg (Real.sqrt (14 * p.1) - Real.sqrt (8 * p.2))]
  have hcost : Demo.Fencing.cost p
      = Real.sqrt (14 * p.1) ^ 2 + Real.sqrt (8 * p.2) ^ 2 := by
    rw [hu2, hv2]
    show 7 * 2 * p.1 + 4 * 2 * p.2 = 14 * p.1 + 8 * p.2
    ring
  have hsqrt_eq : Real.sqrt (112 * (p.1 * p.2)) = Real.sqrt 11200 := by
    refine le_antisymm ?_ hmono
    rw [hcost] at hub
    rw [← huv]
    nlinarith
  have hprod : p.1 * p.2 = 100 := by
    have e1 := Real.sq_sqrt (show (0 : ℝ) ≤ 112 * (p.1 * p.2) by nlinarith)
    have e2 := Real.sq_sqrt (show (0 : ℝ) ≤ 11200 by norm_num)
    rw [hsqrt_eq, e2] at e1
    linarith
  have huveq : Real.sqrt (14 * p.1) = Real.sqrt (8 * p.2) := by
    have hub2 : Real.sqrt (14 * p.1) ^ 2 + Real.sqrt (8 * p.2) ^ 2
        ≤ 2 * (Real.sqrt (14 * p.1) * Real.sqrt (8 * p.2)) := by
      rw [huv, hsqrt_eq, ← hcost]
      exact hub
    have hz : (Real.sqrt (14 * p.1) - Real.sqrt (8 * p.2)) ^ 2 = 0 := by
      have hnn := sq_nonneg (Real.sqrt (14 * p.1) - Real.sqrt (8 * p.2))
      nlinarith
    have := pow_eq_zero_iff two_ne_zero |>.mp hz
    linarith
  have hlin : 14 * p.1 = 8 * p.2 := by
    have h2 : Real.sqrt (14 * p.1) ^ 2 = Real.sqrt (8 * p.2) ^ 2 := by rw [huveq]
    rw [hu2, hv2] at h2
    exact h2
  have hx2 : p.1 ^ 2 = 400 / 7 := by nlinarith
  have hy2 : p.2 ^ 2 = 175 := by nlinarith
  have hxval : p.1 = Real.sqrt (400 / 7) := by
    rw [← hx2, Real.sqrt_sq hx]
  have hyval : p.2 = Real.sqrt 175 := by
    rw [← hy2, Real.sqrt_sq hy]
  have harea : Demo.Fencing.area p = p.1 * p.2 := rfl
  rw [show Real.sqrt (4 / 7 * 100) = Real.sqrt (400 / 7) from by norm_num,
    show Real.sqrt (7 / 4 * 100) = Real.sqrt 175 from by norm_num,
    harea, hprod, hxval, hyval]
  norm_num

/-- Claim C2 witness: the analytic optimum itself satisfies the hypothesis
and the conclusion. -/
theorem fencing_solution_witness :
    Demo.Fencing.IsOptimum (Real.sqrt (400 / 7), Real.sqrt 175) ∧
      (|Demo.Fencing.area (Real.sqrt (400 / 7), Real.sqrt 175) - 100| ≤ 1e-4 ∧
       |(Real.sqrt (400 / 7), Real.sqrt 175).1 - Real.sqrt (4 / 7 * 100)| ≤ 1e-3 ∧
       |(Real.sqrt (400 / 7), Real.sqrt 175).2 - Real.sqrt (7 / 4 * 100)| ≤ 1e-3) :=
  ⟨fencingOptimal,
    fencing_solution_characterization (Real.sqrt (400 / 7), Real.sqrt 175) fencingOptimal⟩

/-- For a nondegenerate quadratic the Newton step lands on the stationary
point from anywhere. -/
theorem newtonStep_eq (a b x : ℚ) (ha : a ≠ 0) :
    Demo.SQP.newtonStep a b x = -b / (2 * a) := by
  unfold Demo.SQP.newtonStep
  field_simp
  ring

/-- The stationary point is a fixed point of the Newton iteration. -/
theorem newtonIter_fixed (a b : ℚ) (ha : a ≠ 0) :
    ∀ fuel, Demo.SQP.newtonIter a b fuel (-b / (2 * a)) = -b / (2 * a) := by
  intro fuel
  induction fuel with
  | zero => rfl
  | succ n ih => simp [Demo.SQP.newtonIter, newtonStep_eq a b _ ha]

/-- With any nonzero fuel the Newton iteration on a nondegenerate quadratic
returns the stationary point exactly. -/
theorem newtonIter_converges (a b : ℚ) (ha : a ≠ 0) (x0 : ℚ) (fuel : ℕ)
    (hf : fuel ≠ 0) : Demo.SQP.newtonIter a b fuel x0 = -b / (2 * a) := by
  cases fuel with
  | zero => exact absurd rfl hf
  | succ n =>
    simp only [Demo.SQP.newtonIter, newtonStep_eq a b x0 ha]
    by_cases h : -b / (2 * a) = x0
    · simp [h]
    · simp [h, newtonIter_fixed a b ha n]

/-- Claim C4: for every strictly convex one-variable quadratic objective
(`a > 0`) and every starting point, the modelled unconstrained solver returns
the unique analytic minimum exactly (so certainly within tolerance 1e-6);
the notebook's objective `-(x - x²/15)` is the instance `a = 1/15, b = -1,
c = 0` of this family. -/
theorem quad_solver_converges (a b c x0 : ℚ) (ha : 0 < a) :
    Demo.SQP.solveQuad a b c x0 = -b / (2 * a) ∧
    |Demo.SQP.solveQuad a b c x0 - -b / (2 * a)| ≤ 1e-6 ∧
    (∀ x : ℚ, Demo.SQP.quadObj a b c (-b / (2 * a)) ≤ Demo.SQP.quadObj a b c x) ∧
    (∀ x : ℚ, Demo.SQP.quadObj a b c x = Demo.SQP.quadObj a b c (-b / (2 * a)) →
      x = -b / (2 * a)) ∧
    (∀ x : ℚ, Demo.SQP.quadObj (1 / 15) (-1) 0 x = -Demo.SQP.profitQ x) := by
  have hsolve : Demo.SQP.solveQuad a b c x0 = -b / (2 * a) :=
    newtonIter_converges a b ha.ne' x0 100 (by norm_num)
  have key : ∀ x : ℚ, Demo.SQP.quadObj a b c x - Demo.SQP.quadObj a b c (-b / (2 * a))
      = (2 * a * x + b) ^ 2 / (4 * a) := by
    intro x
    unfold Demo.SQP.quadObj
    field_simp
    ring
  refine ⟨hsolve, ?_, ?_, ?_, ?_⟩
  · rw [hsolve, sub_self, abs_zero]
    norm_num
  · intro x
    have h1 := key x
    have h2 : (0 : ℚ) ≤ (2 * a * x + b) ^ 2 / (4 * a) := by positivity
    linarith
  · intro x hx
    have h1 := key x
    rw [hx, sub_self] at h1
    have h2 : (2 * a * x + b) ^ 2 = 0 := by
      have h4 : (0 : ℚ) < 4 * a := by linarith
      field_simp at h1
      exact h1.symm
    have h3 : 2 * a * x + b = 0 := pow_eq_zero_iff two_ne_zero |>.mp h2
    field_simp
    linarith
  · intro x
    unfold Demo.SQP.quadObj Demo.SQP.profitQ
    ring

/-- Claim C4 witness: the notebook instance, started from the notebook's
guess `x0 = 7`, lands on 7.5 with profit value 15/4 = 3.75. -/
theorem quad_solver_converges_witness :
    (0 : ℚ) < 1 / 15 ∧ Demo.SQP.solveQuad (1 / 15) (-1) 0 7 = 15 / 2 ∧
      Demo.SQP.profitQ (15 / 2) = 15 / 4 := by
  refine ⟨by norm_num, ?_, by norm_num [Demo.SQP.profitQ]⟩
  have h := (quad_solver_converges (1 / 15) (-1) 0 7 (by norm_num)).1
  rw [h]
  norm_num

/-- Claim C5: two successive solve calls on the same input return identical
results, and the result does not depend on the ambient call state at all:
the modelled solver recomputes everything from its arguments. -/
theorem solve_idempotent (p : Demo.SQP.Problem) (s : Demo.SQP.AmbientState) :
    (Demo.SQP.solveCall p (Demo.SQP.solveCall p s).2).1 = (Demo.SQP.solveCall p s).1 ∧
    ∀ s2 : Demo.SQP.AmbientState,
      (Demo.SQP.solveCall p s).1 = (Demo.SQP.solveCall p s2).1 :=
  ⟨rfl, fun _ => rfl⟩

/-- The squared norm is nonnegative. -/
theorem sqnorm_nonneg (g : List ℚ) : 0 ≤ Demo.SQP.sqnorm g := by
  apply List.sum_nonneg
  intro a ha
  obtain ⟨t, _, rfl⟩ := List.mem_map.mp ha
  exact mul_self_nonneg t

/-- Any point the backtracking line search accepts with a nonnegative step
length does not increase the merit function. -/
theorem backtrack_merit_le (p : Demo.SQP.Problem) (x d : List ℚ) :
    ∀ k t, 0 ≤ t → Demo.SQP.backtrack p x d k t = some x1 →
      Demo.SQP.merit p x1 ≤ Demo.SQP.merit p x := by
  intro k
  induction k with
  | zero => intro t _ h; simp [Demo.SQP.backtrack] at h
  | succ n ih =>
    intro t ht h
    rw [Demo.SQP.backtrack] at h
    by_cases hacc : Demo.SQP.armijoAccept p x d t
    · rw [if_pos hacc] at h
      have hx1 : x1 = Demo.SQP.addScaled x t d := by
        cases h
        rfl
      have harm := hacc
      unfold Demo.SQP.armijoAccept at harm
      have hterm : 0 ≤ Demo.SQP.armijoSigma * t * Demo.SQP.sqnorm d := by
        have h1 : (0 : ℚ) ≤ Demo.SQP.armijoSigma := by norm_num [Demo.SQP.armijoSigma]
        have h2 := sqnorm_nonneg d
        positivity
      rw [hx1]
      linarith
    · rw [if_neg hacc] at h
      exact ih (t / 2) (by linarith) h

/-- The current point heads its own iterate trace. -/
theorem iterates_head (p : Demo.SQP.Problem) :
    ∀ fuel x, (Demo.SQP.iterates p fuel x).head? = some x := by
  intro fuel x
  cases fuel with
  | zero => rfl
  | succ n =>
    rw [Demo.SQP.iterates]
    by_cases hc : Demo.SQP.converged p x
    · rw [if_pos hc]
      rfl
    · rw [if_neg hc]
      cases hls : Demo.SQP.lineSearch p x with
      | none => rfl
      | some x1 => rfl

/-- The current point belongs to its own iterate trace. -/
theorem iterates_self_mem (p : Demo.SQP.Problem) :
    ∀ fuel x, x ∈ Demo.SQP.iterates p fuel x := by
  intro fuel x
  cases fuel with
  | zero => exact List.mem_singleton.mpr rfl
  | succ n =>
    rw [Demo.SQP.iterates]
    by_cases hc : Demo.SQP.converged p x
    · rw [if_pos hc]
      exact List.mem_singleton.mpr rfl
    · rw [if_neg hc]
      cases hls : Demo.SQP.lineSearch p x with
      | none => exact List.mem_singleton.mpr rfl
      | some x1 => exact List.mem_cons_self x _

/-- Claim C6: every step the line search accepts does not increase the merit
function, and consequently the merit values along the accepted iterate
sequence of any run are non-increasing until the loop stops (at convergence
or otherwise). -/
theorem merit_monotone (p : Demo.SQP.Problem) :
    (∀ x x1, Demo.SQP.lineSearch p x = some x1 →
      Demo.SQP.merit p x1 ≤ Demo.SQP.merit p x) ∧
    ∀ fuel x, List.Chain' (fun a b => Demo.SQP.merit p b ≤ Demo.SQP.merit p a)
      (Demo.SQP.iterates p fuel x) := by
  have hstep : ∀ x x1, Demo.SQP.lineSearch p x = some x1 →
      Demo.SQP.merit p x1 ≤ Demo.SQP.merit p x := by
    intro x x1 h
    exact backtrack_merit_le p x (Demo.SQP.descentDir p x)
      Demo.SQP.backtrackBudget 1 (by norm_num) h
  refine ⟨hstep, ?_⟩
  intro fuel
  induction fuel with
  | zero => intro x; exact List.chain'_singleton x
  | succ n ih =>
    intro x
    rw [Demo.SQP.iterates]
    by_cases hc : Demo.SQP.converged p x
    · rw [if_pos hc]
      exact List.chain'_singleton x
    · rw [if_neg hc]
      cases hls : Demo.SQP.lineSearch p x with
      | none => exact List.chain'_singleton x
      | some x1 =>
        refine (ih x1).cons' ?_
        intro y hy
        rw [iterates_head p n x1] at hy
        cases hy
        exact hstep x x1 hls

/-- Claim C6 witness: a concrete accepted step of the concrete run, with its
merit decrease. -/
theorem merit_monotone_witness :
    Demo.SQP.lineSearch Demo.SQP.exampleExhaust [0] = some [-1] ∧
      Demo.SQP.merit Demo.SQP.exampleExhaust [-1] ≤
        Demo.SQP.merit Demo.SQP.exampleExhaust [0] :=
  ⟨by with_unfolding_all rfl,
    (merit_monotone Demo.SQP.exampleExhaust).1 [0] [-1] (by with_unfolding_all rfl)⟩

/-- Claim C7: an input whose gradient, bounds or constraint-Jacobian length
disagrees with the initial decision vector fails with INVALID_DIMENSION,
zero iterations performed, the success flag down and the vector untouched. -/
theorem invalid_dimension_fail_fast (p : Demo.SQP.Problem)
    (h : ¬ Demo.SQP.dimsOk p) :
    (Demo.SQP.solve p).reason = Demo.SQP.TermReason.INVALID_DIMENSION ∧
    (Demo.SQP.solve p).iterations = 0 ∧
    (Demo.SQP.solve p).success = false ∧
    (Demo.SQP.solve p).x = p.x0 := by
  unfold Demo.SQP.solve
  rw [if_neg h]
  exact ⟨rfl, rfl, rfl, rfl⟩

/-- Claim C7 witness: the 3-element initial vector with the 2-element
gradient fails fast exactly this way. -/
theorem invalid_dimension_fail_fast_witness :
    ¬ Demo.SQP.dimsOk Demo.SQP.exampleMismatch ∧
      ((Demo.SQP.solve Demo.SQP.exampleMismatch).reason =
        Demo.SQP.TermReason.INVALID_DIMENSION ∧
       (Demo.SQP.solve Demo.SQP.exampleMismatch).iterations = 0 ∧
       (Demo.SQP.solve Demo.SQP.exampleMismatch).success = false ∧
       (Demo.SQP.solve Demo.SQP.exampleMismatch).x = Demo.SQP.exampleMismatch.x0) :=
  ⟨by with_unfolding_all decide,
    invalid_dimension_fail_fast Demo.SQP.exampleMismatch (by with_unfolding_all decide)⟩

/-- Violation of a single constraint is nonnegative. -/
theorem consViolation_nonneg (c : Demo.SQP.Constraint) (x : List ℚ) :
    0 ≤ Demo.SQP.consViolation c x := by
  rcases c with ⟨k, f, j⟩
  cases k
  · exact abs_nonneg (f x)
  · exact le_max_left 0 (-(f x))

/-- Violation of a single bound pair is nonnegative. -/
theorem boundViolation_nonneg (b : Demo.SQP.Bound) (v : ℚ) :
    0 ≤ Demo.SQP.boundViolation b v := by
  rcases b with ⟨lo, hi⟩
  unfold Demo.SQP.boundViolation
  apply add_nonneg
  · cases lo with
    | none => exact le_refl 0
    | some l => exact le_max_left 0 (l - v)
  · cases hi with
    | none => exact le_refl 0
    | some u => exact le_max_left 0 (v - u)

/-- A result whose success flag is up came out of the CONVERGED exit, so the
convergence test holds at the returned point. -/
theorem solveLoop_success_converged (p : Demo.SQP.Problem) :
    ∀ fuel x best iters,
      (Demo.SQP.solveLoop p fuel x best iters).success = true →
      Demo.SQP.converged p (Demo.SQP.solveLoop p fuel x best iters).x ∧
      (Demo.SQP.solveLoop p fuel x best iters).reason =
        Demo.SQP.TermReason.CONVERGED := by
  intro fuel
  induction fuel with
  | zero =>
    intro x best iters h
    exact Bool.noConfusion h
  | succ n ih =>
    intro x best iters h
    simp only [Demo.SQP.solveLoop] at h ⊢
    by_cases hc : Demo.SQP.converged p x
    · rw [if_pos hc] at h ⊢
      exact ⟨hc, rfl⟩
    · rw [if_neg hc] at h ⊢
      cases hls : Demo.SQP.lineSearch p x with
      | none =>
        rw [hls] at h
        exact Bool.noConfusion h
      | some x1 =>
        rw [hls] at h
        exact ih x1 (Demo.SQP.updBest p best x1) (iters + 1) h

/-- When the total violation is within tolerance, so is every individual
constraint violation and every individual bound violation. -/
theorem violation_components_le (p : Demo.SQP.Problem) (x : List ℚ)
    (h : Demo.SQP.violation p x ≤ p.tol) :
    (∀ c ∈ p.constraints, Demo.SQP.consViolation c x ≤ p.tol) ∧
    ∀ vb ∈ x.zip p.bounds, Demo.SQP.boundViolation vb.2 vb.1 ≤ p.tol := by
  have hA : ∀ a ∈ p.constraints.map (fun c => Demo.SQP.consViolation c x), 0 ≤ a := by
    intro a ha
    obtain ⟨c, _, rfl⟩ := List.mem_map.mp ha
    exact consViolation_nonneg c x
  have hB : ∀ a ∈ (x.zip p.bounds).map
      (fun vb => Demo.SQP.boundViolation vb.2 vb.1), 0 ≤ a := by
    intro a ha
    obtain ⟨vb, _, rfl⟩ := List.mem_map.mp ha
    exact boundViolation_nonneg vb.2 vb.1
  have hsA := List.sum_nonneg hA
  have hsB := List.sum_nonneg hB
  have hv : (p.constraints.map (fun c => Demo.SQP.consViolation c x)).sum +
      ((x.zip p.bounds).map (fun vb => Demo.SQP.boundViolation vb.2 vb.1)).sum
      ≤ p.tol := h
  constructor
  · intro c hc
    have hle := List.single_le_sum hA _
      (List.mem_map_of_mem (fun c => Demo.SQP.consViolation c x) hc)
    linarith
  · intro vb hvb
    have hle := List.single_le_sum hB _
      (List.mem_map_of_mem (fun vb => Demo.SQP.boundViolation vb.2 vb.1) hvb)
    linarith

/-- Claim C1: whenever solve reports success, the returned point satisfies
every constraint and every bound to within the tolerance (total violation
within tolerance, hence each individual one); whenever the iteration budget
runs out or no acceptable descent step exists, the result carries a lowered
success flag. -/
theorem solve_success_feasible (p : Demo.SQP.Problem) :
    ((Demo.SQP.solve p).success = true →
      Demo.SQP.violation p (Demo.SQP.solve p).x ≤ p.tol ∧
      (∀ c ∈ p.constraints,
        Demo.SQP.consViolation c (Demo.SQP.solve p).x ≤ p.tol) ∧
      ∀ vb ∈ (Demo.SQP.solve p).x.zip p.bounds,
        Demo.SQP.boundViolation vb.2 vb.1 ≤ p.tol) ∧
    (((Demo.SQP.solve p).reason = Demo.SQP.TermReason.MAX_ITERATIONS_EXCEEDED ∨
      (Demo.SQP.solve p).reason = Demo.SQP.TermReason.NO_DESCENT_DIRECTION) →
      (Demo.SQP.solve p).success = false) := by
  constructor
  · intro h
    have hconv : Demo.SQP.converged p (Demo.SQP.solve p).x := by
      unfold Demo.SQP.solve at h ⊢
      by_cases hd : Demo.SQP.dimsOk p
      · rw [if_pos hd] at h ⊢
        exact (solveLoop_success_converged p p.maxIter p.x0 p.x0 0 h).1
      · rw [if_neg hd] at h
        exact Bool.noConfusion h
    exact ⟨hconv.1, violation_components_le p _ hconv.1⟩
  · intro h
    by_cases hd : Demo.SQP.dimsOk p
    · cases hs : (Demo.SQP.solve p).success with
      | false => rfl
      | true =>
        have hr : (Demo.SQP.solve p).reason = Demo.SQP.TermReason.CONVERGED := by
          unfold Demo.SQP.solve at hs ⊢
          rw [if_pos hd] at hs ⊢
          exact (solveLoop_success_converged p p.maxIter p.x0 p.x0 0 hs).2
        rw [hr] at h
        rcases h with h | h
        · exact absurd h (by decide)
        · exact absurd h (by decide)
    · show (Demo.SQP.solve p).success = false
      unfold Demo.SQP.solve
      rw [if_neg hd]

/-- Claim C1 witness: the concretely convergent problem reports success and
its returned point satisfies its constraint and its bound within tolerance. -/
theorem solve_success_feasible_witness :
    (Demo.SQP.solve Demo.SQP.exampleConvergent).success = true ∧
      (Demo.SQP.violation Demo.SQP.exampleConvergent
          (Demo.SQP.solve Demo.SQP.exampleConvergent).x ≤
          Demo.SQP.exampleConvergent.tol ∧
        (∀ c ∈ Demo.SQP.exampleConvergent.constraints,
          Demo.SQP.consViolation c (Demo.SQP.solve Demo.SQP.exampleConvergent).x ≤
            Demo.SQP.exampleConvergent.tol) ∧
        ∀ vb ∈ (Demo.SQP.solve Demo.SQP.exampleConvergent).x.zip
            Demo.SQP.exampleConvergent.bounds,
          Demo.SQP.boundViolation vb.2 vb.1 ≤ Demo.SQP.exampleConvergent.tol) :=
  ⟨by with_unfolding_all rfl,
    (solve_success_feasible Demo.SQP.exampleConvergent).1 (by with_unfolding_all rfl)⟩

/-- What best-iterate tracking guarantees: the stored point is one of the two
candidates and its merit is at most either candidate's. -/
theorem updBest_spec (p : Demo.SQP.Problem) (best x : List ℚ) :
    (Demo.SQP.updBest p best x = x ∨ Demo.SQP.updBest p best x = best) ∧
    Demo.SQP.merit p (Demo.SQP.updBest p best x) ≤ Demo.SQP.merit p best ∧
    Demo.SQP.merit p (Demo.SQP.updBest p best x) ≤ Demo.SQP.merit p x := by
  unfold Demo.SQP.updBest
  by_cases h : Demo.SQP.merit p x ≤ Demo.SQP.merit p best
  · rw [if_pos h]
    exact ⟨Or.inl rfl, h, le_refl _⟩
  · rw [if_neg h]
    exact ⟨Or.inr rfl, le_refl _, (not_le.mp h).le⟩

/-- Exhausting the budget makes the loop return, with the failure flag, the
best-merit iterate among all visited points. -/
theorem solveLoop_maxiter (p : Demo.SQP.Problem) :
    ∀ fuel x best iters,
      Demo.SQP.merit p best ≤ Demo.SQP.merit p x →
      (Demo.SQP.solveLoop p fuel x best iters).reason =
        Demo.SQP.TermReason.MAX_ITERATIONS_EXCEEDED →
      (Demo.SQP.solveLoop p fuel x best iters).success = false ∧
      ((Demo.SQP.solveLoop p fuel x best iters).x = best ∨
        (Demo.SQP.solveLoop p fuel x best iters).x ∈ Demo.SQP.iterates p fuel x) ∧
      Demo.SQP.merit p (Demo.SQP.solveLoop p fuel x best iters).x ≤
        Demo.SQP.merit p best ∧
      ∀ y ∈ Demo.SQP.iterates p fuel x,
        Demo.SQP.merit p (Demo.SQP.solveLoop p fuel x best iters).x ≤
          Demo.SQP.merit p y := by
  intro fuel
  induction fuel with
  | zero =>
    intro x best iters hpre _
    refine ⟨rfl, Or.inl rfl, le_refl _, ?_⟩
    intro y hy
    have hyx : y = x := by simpa [Demo.SQP.iterates] using hy
    rw [hyx]
    exact hpre
  | succ n ih =>
    intro x best iters hpre hr
    simp only [Demo.SQP.solveLoop, Demo.SQP.iterates] at hr ⊢
    by_cases hc : Demo.SQP.converged p x
    · rw [if_pos hc] at hr
      have hr2 : Demo.SQP.TermReason.CONVERGED =
          Demo.SQP.TermReason.MAX_ITERATIONS_EXCEEDED := hr
      exact absurd hr2 (by decide)
    · rw [if_neg hc] at hr ⊢
      rw [if_neg hc]
      cases hls : Demo.SQP.lineSearch p x with
      | none =>
        rw [hls] at hr
        have hr2 : Demo.SQP.TermReason.NO_DESCENT_DIRECTION =
            Demo.SQP.TermReason.MAX_ITERATIONS_EXCEEDED := hr
        exact absurd hr2 (by decide)
      | some x1 =>
        rw [hls] at hr
        have hspec := updBest_spec p best x1
        have hout := ih x1 (Demo.SQP.updBest p best x1) (iters + 1) hspec.2.2 hr
        refine ⟨hout.1, ?_, le_trans hout.2.2.1 hspec.2.1, ?_⟩
        · rcases hout.2.1 with h1 | h1
          · rcases hspec.1 with h2 | h2
            · right
              rw [h1, h2]
              exact List.mem_cons_of_mem x (iterates_self_mem p n x1)
            · left
              rw [h1, h2]
          · right
            exact List.mem_cons_of_mem x h1
        · intro y hy
          have hy2 : y = x ∨ y ∈ Demo.SQP.iterates p n x1 := List.mem_cons.mp hy
          rcases hy2 with rfl | hy2
          · exact le_trans (le_trans hout.2.2.1 hspec.2.1) hpre
          · exact hout.2.2.2 y hy2

/-- Claim C8: when the iteration budget is exhausted, the result carries the
failure flag and the MAX_ITERATIONS_EXCEEDED reason, and its vector is one of
the visited iterates, of minimal merit among all of them (partial progress is
kept, not discarded). -/
theorem max_iter_returns_best (p : Demo.SQP.Problem)
    (h : (Demo.SQP.solve p).reason =
      Demo.SQP.TermReason.MAX_ITERATIONS_EXCEEDED) :
    (Demo.SQP.solve p).success = false ∧
    (Demo.SQP.solve p).x ∈ Demo.SQP.iterates p p.maxIter p.x0 ∧
    ∀ y ∈ Demo.SQP.iterates p p.maxIter p.x0,
      Demo.SQP.merit p (Demo.SQP.solve p).x ≤ Demo.SQP.merit p y := by
  unfold Demo.SQP.solve at h ⊢
  by_cases hd : Demo.SQP.dimsOk p
  · rw [if_pos hd] at h ⊢
    have hout := solveLoop_maxiter p p.maxIter p.x0 p.x0 0 (le_refl _) h
    refine ⟨hout.1, ?_, hout.2.2.2⟩
    rcases hout.2.1 with h1 | h1
    · rw [h1]
      exact iterates_self_mem p p.maxIter p.x0
    · exact h1
  · rw [if_neg hd] at h
    have h2 : Demo.SQP.TermReason.INVALID_DIMENSION =
        Demo.SQP.TermReason.MAX_ITERATIONS_EXCEEDED := h
    exact absurd h2 (by decide)

/-- Claim C8 witness: the concrete budget-exhausting run ends with the
failure flag and the best visited iterate. -/
theorem max_iter_returns_best_witness :
    (Demo.SQP.solve Demo.SQP.exampleExhaust).reason =
      Demo.SQP.TermReason.MAX_ITERATIONS_EXCEEDED ∧
      ((Demo.SQP.solve Demo.SQP.exampleExhaust).success = false ∧
        (Demo.SQP.solve Demo.SQP.exampleExhaust).x ∈
          Demo.SQP.iterates Demo.SQP.exampleExhaust
            Demo.SQP.exampleExhaust.maxIter Demo.SQP.exampleExhaust.x0 ∧
        ∀ y ∈ Demo.SQP.iterates Demo.SQP.exampleExhaust
            Demo.SQP.exampleExhaust.maxIter Demo.SQP.exampleExhaust.x0,
          Demo.SQP.merit Demo.SQP.exampleExhaust
              (Demo.SQP.solve Demo.SQP.exampleExhaust).x ≤
            Demo.SQP.merit Demo.SQP.exampleExhaust y) :=
  ⟨by with_unfolding_all rfl,
    max_iter_returns_best Demo.SQP.exampleExhaust (by with_unfolding_all rfl)⟩
